import Mathlib

/-!
Verification of `frontend/find_missing.py`: a scanner over the lines of a
gettext `.po` catalog that reports every line whose stripped content is the
literal `msgstr ""`, unless the immediately preceding line (stripped) is
`msgid ""` (the header heuristic), together with the consecutive run of
`msgid`-prefixed lines directly above it as context.

The script is embedded shallowly: the loaded file is a `List String` of raw
lines (line endings included, as `readlines` keeps them), the printed output
is a `List String` of printed lines, and Python's `str.strip()` /
`str.startswith` are modelled on the character lists of the strings so that
everything reduces in the kernel.
-/

namespace FindMissing

/-- Whitespace as stripped by Python's `str.strip()`, restricted to the ASCII
whitespace characters. -/
def pyIsSpace (c : Char) : Bool :=
  c = ' ' || c = '\t' || c = '\n' || c = '\r' || c = '\x0b' || c = '\x0c'

/-- Model of Python's `line.strip()`: remove leading and trailing whitespace. -/
def pyStrip (s : String) : String :=
  ⟨((s.data.dropWhile pyIsSpace).reverse.dropWhile pyIsSpace).reverse⟩

/-- Model of Python's `s.startswith(pre)`. -/
def pyStartsWith (s pre : String) : Bool :=
  pre.data.isPrefixOf s.data

/-- The backward context walk of `find_missing.py`: `j` starts at `i - 1`
(encoded here as the argument `i`, i.e. one past the next index to inspect,
so that `0` means `j = -1`) and, while `lines[j].startswith("msgid")`,
prints `  Context: <stripped line>` and decrements `j`. -/
def contextWalk (lines : List String) : Nat → List String
  | 0 => []
  | j+1 =>
    let l := lines.getD j ""
    if pyStartsWith l "msgid" then ("  Context: " ++ pyStrip l) :: contextWalk lines j
    else []

/-- One iteration of the scan loop at index `i`: if the stripped line is the
marker `msgstr ""`, decide the header flag from the preceding line, and if it
is not a header emit the `Line <i+1>: ...` report followed by the context
walk; otherwise emit nothing. -/
def reportBlock (lines : List String) (i : Nat) : List String :=
  let line := lines.getD i ""
  if pyStrip line = "msgstr \"\"" then
    let is_header := 0 < i ∧ pyStrip (lines.getD (i-1) "") = "msgid \"\""
    if is_header then []
    else ("Line " ++ toString (i+1) ++ ": " ++ pyStrip line) :: contextWalk lines i
  else []

/-- The scan loop, `n` iterations starting at index `i`. -/
def scanAux (lines : List String) : Nat → Nat → List String
  | 0, _ => []
  | n+1, i => reportBlock lines i ++ scanAux lines n (i+1)

/-- Everything printed by `for i, line in enumerate(lines): ...`. -/
def scanOutput (lines : List String) : List String :=
  scanAux lines lines.length 0

/-- Result of the `open`/`readlines` step: either the list of lines, or the
description of the exception raised while opening, reading or decoding. -/
inductive ReadResult where
  | ok : List String → ReadResult
  | err : String → ReadResult

/-- The whole program under the `try`/`except` wrapper: on a successful read
the scan output is printed; on a read failure the exception's description is
printed and the program returns normally. -/
def programOutput : ReadResult → List String
  | ReadResult.ok lines => scanOutput lines
  | ReadResult.err e => [e]

/-- A run of the scanner: the printed output together with the (unmodified)
file contents after the run. -/
structure ScanRun where
  output : List String
  file : List String

/-- Running the scanner reads the file and prints; it never writes the file
back. -/
def runScanner (file : List String) : ScanRun :=
  { output := scanOutput file, file := file }

/-- Checked variant of the context walk: each access `lines[j]` is performed
through `lines[j]?`, and an out-of-bounds access yields `none`. -/
def contextWalkChecked (lines : List String) : Nat → Option (List String)
  | 0 => some []
  | j+1 =>
    match lines[j]? with
    | none => none
    | some l =>
      if pyStartsWith l "msgid" then
        match contextWalkChecked lines j with
        | none => none
        | some rest => some (("  Context: " ++ pyStrip l) :: rest)
      else some []

/-- Checked variant of one scan iteration: the accesses `lines[i]` and (when
`i > 0`) `lines[i-1]` are performed through `·[·]?`, and an out-of-bounds
access yields `none`. -/
def reportBlockChecked (lines : List String) (i : Nat) : Option (List String) :=
  match lines[i]? with
  | none => none
  | some line =>
    if pyStrip line = "msgstr \"\"" then
      match (if 0 < i then (lines[i-1]?).map (fun p => decide (pyStrip p = "msgid \"\"")) else some false) with
      | none => none
      | some true => some []
      | some false =>
        (contextWalkChecked lines i).map
          (fun ctx => ("Line " ++ toString (i+1) ++ ": " ++ pyStrip line) :: ctx)
    else some []

/-- Checked variant of the scan loop, propagating any out-of-bounds access. -/
def scanAuxChecked (lines : List String) : Nat → Nat → Option (List String)
  | 0, _ => some []
  | n+1, i =>
    match reportBlockChecked lines i with
    | none => none
    | some b =>
      match scanAuxChecked lines n (i+1) with
      | none => none
      | some rest => some (b ++ rest)

/-- Checked variant of the whole scan. -/
def scanChecked (lines : List String) : Option (List String) :=
  scanAuxChecked lines lines.length 0

lemma getD_of_lt (lines : List String) (j : Nat) (h : j < lines.length) :
    lines[j]? = some (lines.getD j "") := by
  simp [List.getD, List.getElem?_eq_getElem h]

/-- C4: any failure to open, read or decode the input file is caught; its
description is the only printed line (printed exactly once), no report blocks
are produced, and the program returns a value (terminates normally). -/
theorem read_error_prints_description_once (e : String) :
    programOutput (ReadResult.err e) = [e] := rfl

/-- C5: a line whose stripped content is not the literal `msgstr ""` is never
reported and contributes no output at all. -/
theorem nonmarker_never_reported (lines : List String) (i : Nat)
    (h : pyStrip (lines.getD i "") ≠ "msgstr \"\"") :
    reportBlock lines i = [] := by
  simp only [reportBlock]
  rw [if_neg h]

theorem nonmarker_never_reported_witness :
    reportBlock ["msgid \"Hi\"\n", "msgstr \"Bonjour\"\n"] 1 = [] :=
  nonmarker_never_reported ["msgid \"Hi\"\n", "msgstr \"Bonjour\"\n"] 1 (by decide)

/-- C7: the scanner is deterministic and effect-free: a run leaves the file
unchanged, and a second run on the file left by the first produces the same
output as the first. -/
theorem scanner_pure_idempotent (file : List String) :
    (runScanner file).file = file ∧
    (runScanner ((runScanner file).file)).output = (runScanner file).output :=
  ⟨rfl, rfl⟩

/-- C1: a marker line (stripped content `msgstr ""`) is skipped when the
header flag holds (its index is positive and the stripped preceding line is
`msgid ""`), and otherwise is reported as `Line <1-based index>: <stripped
content>` followed by the context walk. -/
theorem marker_reported_iff_not_header (lines : List String) (i : Nat)
    (hm : pyStrip (lines.getD i "") = "msgstr \"\"") :
    ((0 < i ∧ pyStrip (lines.getD (i-1) "") = "msgid \"\"") →
      reportBlock lines i = []) ∧
    (¬ (0 < i ∧ pyStrip (lines.getD (i-1) "") = "msgid \"\"") →
      reportBlock lines i =
        ("Line " ++ toString (i+1) ++ ": " ++ pyStrip (lines.getD i "")) ::
          contextWalk lines i) := by
  constructor
  · intro hh
    simp only [reportBlock]
    rw [if_pos hm, if_pos hh]
  · intro hh
    simp only [reportBlock]
    rw [if_pos hm, if_neg hh]

theorem marker_reported_iff_not_header_witness :
    reportBlock ["msgid \"Hello\"\n", "msgstr \"\"\n"] 1 =
      ["Line 2: msgstr \"\"", "  Context: msgid \"Hello\""] := by
  have h := marker_reported_iff_not_header ["msgid \"Hello\"\n", "msgstr \"\"\n"] 1 (by decide)
  rw [h.2 (by decide)]
  decide

/-- C3: any marker whose stripped preceding line is `msgid ""` produces no
output at all, wherever it occurs; in particular a header-only file yields
zero reports, and an empty `msgid` elsewhere in the catalog that precedes an
empty `msgstr` is silently skipped as well. -/
theorem header_heuristic_suppresses :
    (∀ (lines : List String) (i : Nat), 0 < i →
        pyStrip (lines.getD (i-1) "") = "msgid \"\"" →
        reportBlock lines i = []) ∧
    scanOutput ["msgid \"\"\n", "msgstr \"\"\n"] = [] ∧
    scanOutput ["msgid \"a\"\n", "msgstr \"done\"\n", "\n", "msgid \"\"\n", "msgstr \"\"\n"] = [] := by
  refine ⟨?_, by decide, by decide⟩
  intro lines i hpos hprev
  simp only [reportBlock]
  split
  · rw [if_pos ⟨hpos, hprev⟩]
  · rfl

theorem header_heuristic_suppresses_witness :
    reportBlock ["msgid \"\"\n", "msgstr \"\"\n"] 1 = [] :=
  header_heuristic_suppresses.1 ["msgid \"\"\n", "msgstr \"\"\n"] 1 (by decide) (by decide)

lemma contextWalk_eq_takeWhile (lines : List String) :
    ∀ i, i ≤ lines.length →
      contextWalk lines i =
        ((lines.take i).reverse.takeWhile (fun l => pyStartsWith l "msgid")).map
          (fun l => "  Context: " ++ pyStrip l) := by
  intro i
  induction i with
  | zero => intro _; simp [contextWalk]
  | succ j ih =>
    intro hi
    have hj : j < lines.length := hi
    have hget : lines[j]? = some (lines.getD j "") := getD_of_lt lines j hj
    have hstep : contextWalk lines (j+1) =
        (if pyStartsWith (lines.getD j "") "msgid" = true then
          ("  Context: " ++ pyStrip (lines.getD j "")) :: contextWalk lines j
        else []) := rfl
    have htake : (lines.take (j+1)).reverse =
        lines.getD j "" :: (lines.take j).reverse := by
      rw [List.take_succ, hget]
      simp
    rw [hstep, htake]
    simp only [List.takeWhile_cons]
    by_cases hp : pyStartsWith (lines.getD j "") "msgid" = true
    · rw [if_pos hp, if_pos hp, List.map_cons, ih (Nat.le_of_lt hj)]
    · rw [if_neg hp, if_neg hp, List.map_nil]

/-- C2: for each reported marker the context walk equals the maximal run of
`msgid`-prefixed lines directly above the marker, taken bottom-up (the
reversal of the file-order run); in particular a two-line `msgid`
continuation is printed in reverse order of appearance. -/
theorem context_lines_reverse_run :
    (∀ (lines : List String) (i : Nat), i ≤ lines.length →
      contextWalk lines i =
        ((lines.take i).reverse.takeWhile (fun l => pyStartsWith l "msgid")).map
          (fun l => "  Context: " ++ pyStrip l)) ∧
    scanOutput ["msgid \"first\"\n", "msgid \"second\"\n", "msgstr \"\"\n"] =
      ["Line 3: msgstr \"\"", "  Context: msgid \"second\"", "  Context: msgid \"first\""] :=
  ⟨contextWalk_eq_takeWhile, by decide⟩

theorem context_lines_reverse_run_witness :
    contextWalk ["msgid \"x\"\n", "msgstr \"\"\n"] 1 =
      (((["msgid \"x\"\n", "msgstr \"\"\n"].take 1).reverse.takeWhile
          (fun l => pyStartsWith l "msgid")).map (fun l => "  Context: " ++ pyStrip l)) :=
  context_lines_reverse_run.1 ["msgid \"x\"\n", "msgstr \"\"\n"] 1 (by decide)

lemma scanAux_eq_flatten (lines : List String) :
    ∀ n i, scanAux lines n i = ((List.range' i n).map (reportBlock lines)).flatten := by
  intro n
  induction n with
  | zero => intro i; simp [scanAux]
  | succ m ih =>
    intro i
    rw [List.range'_succ]
    simp [scanAux, ih]

/-- C6: the whole output is the concatenation, in increasing index order, of
the per-index report blocks, and every block is either empty or its location
line immediately followed by its context lines. -/
theorem output_blocks_in_file_order (lines : List String) :
    scanOutput lines = ((List.range lines.length).map (reportBlock lines)).flatten ∧
    (∀ i, reportBlock lines i = [] ∨
      reportBlock lines i =
        ("Line " ++ toString (i+1) ++ ": " ++ pyStrip (lines.getD i "")) ::
          contextWalk lines i) := by
  constructor
  · rw [scanOutput, List.range_eq_range', scanAux_eq_flatten]
  · intro i
    by_cases hm : pyStrip (lines.getD i "") = "msgstr \"\""
    · by_cases hh : 0 < i ∧ pyStrip (lines.getD (i-1) "") = "msgid \"\""
      · left
        simp only [reportBlock]
        rw [if_pos hm, if_pos hh]
      · right
        simp only [reportBlock]
        rw [if_pos hm, if_neg hh]
    · left
      simp only [reportBlock]
      rw [if_neg hm]

lemma contextWalk_length_le (lines : List String) : ∀ j, (contextWalk lines j).length ≤ j := by
  intro j
  induction j with
  | zero => simp [contextWalk]
  | succ k ih =>
    have hstep : contextWalk lines (k+1) =
        (if pyStartsWith (lines.getD k "") "msgid" = true then
          ("  Context: " ++ pyStrip (lines.getD k "")) :: contextWalk lines k
        else []) := rfl
    rw [hstep]
    by_cases hp : pyStartsWith (lines.getD k "") "msgid" = true
    · rw [if_pos hp]
      simp only [List.length_cons]
      omega
    · rw [if_neg hp]
      simp

lemma reportBlock_length_le (lines : List String) (i : Nat) :
    (reportBlock lines i).length ≤ i + 1 := by
  simp only [reportBlock]
  by_cases hm : pyStrip (lines.getD i "") = "msgstr \"\""
  · rw [if_pos hm]
    by_cases hh : 0 < i ∧ pyStrip (lines.getD (i-1) "") = "msgid \"\""
    · rw [if_pos hh]
      simp
    · rw [if_neg hh]
      simp only [List.length_cons]
      have := contextWalk_length_le lines i
      omega
  · rw [if_neg hm]
    simp

lemma scanAux_length_le (lines : List String) :
    ∀ n i, i + n ≤ lines.length → (scanAux lines n i).length ≤ n * (lines.length + 1) := by
  intro n
  induction n with
  | zero => intro i _; simp [scanAux]
  | succ m ih =>
    intro i hi
    simp only [scanAux, List.length_append]
    have h1 : (reportBlock lines i).length ≤ i + 1 := reportBlock_length_le lines i
    have h2 := ih (i+1) (by omega)
    have h3 : i + 1 ≤ lines.length := by omega
    have h4 : (m+1) * (lines.length + 1) = m * (lines.length + 1) + (lines.length + 1) := by
      ring
    omega

/-- C8: the scan is one bounded pass: every backward context walk started
with budget `j` emits at most `j` lines, and the whole output of a scan of
`lines` has at most `lines.length * (lines.length + 1)` lines, so the
(total, terminating) scan is bounded by the input size. -/
theorem scan_single_bounded_pass (lines : List String) :
    (∀ j, (contextWalk lines j).length ≤ j) ∧
    (scanOutput lines).length ≤ lines.length * (lines.length + 1) :=
  ⟨contextWalk_length_le lines, by
    have h := scanAux_length_le lines lines.length 0 (by omega)
    simpa [scanOutput] using h⟩

lemma contextWalkChecked_eq (lines : List String) :
    ∀ j, j ≤ lines.length → contextWalkChecked lines j = some (contextWalk lines j) := by
  intro j
  induction j with
  | zero => intro _; rfl
  | succ k ih =>
    intro hk
    have hget : lines[k]? = some (lines.getD k "") := getD_of_lt lines k hk
    have hwalk : contextWalk lines (k+1) =
        (if pyStartsWith (lines.getD k "") "msgid" = true then
          ("  Context: " ++ pyStrip (lines.getD k "")) :: contextWalk lines k
        else []) := rfl
    simp only [contextWalkChecked, hget, hwalk]
    by_cases hp : pyStartsWith (lines.getD k "") "msgid" = true
    · rw [if_pos hp, if_pos hp, ih (Nat.le_of_lt hk)]
    · rw [if_neg hp, if_neg hp]

lemma reportBlockChecked_eq (lines : List String) (i : Nat) (h : i < lines.length) :
    reportBlockChecked lines i = some (reportBlock lines i) := by
  have hget : lines[i]? = some (lines.getD i "") := getD_of_lt lines i h
  simp only [reportBlockChecked, reportBlock, hget]
  by_cases hm : pyStrip (lines.getD i "") = "msgstr \"\""
  · rw [if_pos hm, if_pos hm]
    by_cases hpos : 0 < i
    · have hi1 : i - 1 < lines.length := by omega
      have hget1 : lines[i-1]? = some (lines.getD (i-1) "") := getD_of_lt lines (i-1) hi1
      rw [if_pos hpos, hget1, Option.map_some']
      by_cases hprev : pyStrip (lines.getD (i-1) "") = "msgid \"\""
      · rw [decide_eq_true hprev, if_pos ⟨hpos, hprev⟩]
      · rw [decide_eq_false hprev, contextWalkChecked_eq lines i (Nat.le_of_lt h),
          Option.map_some', if_neg (fun hc => hprev hc.2)]
    · rw [if_neg hpos, contextWalkChecked_eq lines i (Nat.le_of_lt h), Option.map_some',
        if_neg (fun hc => hpos hc.1)]
  · rw [if_neg hm, if_neg hm]

lemma scanAuxChecked_eq (lines : List String) :
    ∀ n i, i + n ≤ lines.length → scanAuxChecked lines n i = some (scanAux lines n i) := by
  intro n
  induction n with
  | zero => intro i _; rfl
  | succ m ih =>
    intro i hi
    have h1 : i < lines.length := by omega
    simp only [scanAuxChecked, scanAux, reportBlockChecked_eq lines i h1, ih (i+1) (by omega)]

/-- C9: all sequence accesses are in bounds: the checked scan, in which every
index access may fail, never fails and agrees with the scan; and a marker on
the very first line (index 0) is never classified as a header and is
reported with exactly zero context lines. -/
theorem all_accesses_in_bounds (lines : List String) :
    scanChecked lines = some (scanOutput lines) ∧
    (pyStrip (lines.getD 0 "") = "msgstr \"\"" →
      reportBlock lines 0 = ["Line " ++ toString 1 ++ ": " ++ pyStrip (lines.getD 0 "")]) := by
  constructor
  · exact scanAuxChecked_eq lines lines.length 0 (by omega)
  · intro h0
    simp only [reportBlock]
    rw [if_pos h0]
    have hh : ¬ ((0:Nat) < 0 ∧ pyStrip (lines.getD (0-1) "") = "msgid \"\"") := by
      simp
    rw [if_neg hh]
    rfl

theorem all_accesses_in_bounds_witness :
    reportBlock ["msgstr \"\"\n"] 0 =
      ["Line " ++ toString 1 ++ ": " ++ pyStrip (["msgstr \"\"\n"].getD 0 "")] :=
  (all_accesses_in_bounds ["msgstr \"\"\n"]).2 (by decide)

lemma mem_contextWalk_shape (lines : List String) :
    ∀ j s, s ∈ contextWalk lines j → ∃ t, s = "  Context: " ++ t := by
  intro j
  induction j with
  | zero => intro s hs; simp [contextWalk] at hs
  | succ k ih =>
    intro s hs
    have hstep : contextWalk lines (k+1) =
        (if pyStartsWith (lines.getD k "") "msgid" = true then
          ("  Context: " ++ pyStrip (lines.getD k "")) :: contextWalk lines k
        else []) := rfl
    rw [hstep] at hs
    by_cases hp : pyStartsWith (lines.getD k "") "msgid" = true
    · rw [if_pos hp] at hs
      rcases List.mem_cons.mp hs with h | h
      · exact ⟨pyStrip (lines.getD k ""), h⟩
      · exact ih s h
    · rw [if_neg hp] at hs
      simp at hs

lemma mem_reportBlock_shape (lines : List String) (i : Nat) (s : String)
    (hs : s ∈ reportBlock lines i) :
    (∃ n : Nat, s = "Line " ++ toString n ++ ": " ++ "msgstr \"\"") ∨
    (∃ t, s = "  Context: " ++ t) := by
  simp only [reportBlock] at hs
  by_cases hm : pyStrip (lines.getD i "") = "msgstr \"\""
  · rw [if_pos hm] at hs
    by_cases hh : 0 < i ∧ pyStrip (lines.getD (i-1) "") = "msgid \"\""
    · rw [if_pos hh] at hs
      simp at hs
    · rw [if_neg hh] at hs
      rcases List.mem_cons.mp hs with h | h
      · left
        exact ⟨i+1, by rw [h, hm]⟩
      · right
        exact mem_contextWalk_shape lines i s h
  · rw [if_neg hm] at hs
    simp at hs

lemma mem_scanAux_shape (lines : List String) :
    ∀ n i s, s ∈ scanAux lines n i →
      (∃ m : Nat, s = "Line " ++ toString m ++ ": " ++ "msgstr \"\"") ∨
      (∃ t, s = "  Context: " ++ t) := by
  intro n
  induction n with
  | zero => intro i s hs; simp [scanAux] at hs
  | succ k ih =>
    intro i s hs
    simp only [scanAux] at hs
    rcases List.mem_append.mp hs with h | h
    · exact mem_reportBlock_shape lines i s h
    · exact ih (i+1) s h

/-- C10: in a run with no read error, every printed line is either a location
line `Line <n>: msgstr ""` (the reported content is always exactly the
marker literal) or a context line starting with the prefix `  Context: `. -/
theorem printed_line_shapes (lines : List String) (s : String)
    (hs : s ∈ programOutput (ReadResult.ok lines)) :
    (∃ n : Nat, s = "Line " ++ toString n ++ ": " ++ "msgstr \"\"") ∨
    (∃ t, s = "  Context: " ++ t) :=
  mem_scanAux_shape lines lines.length 0 s hs

theorem printed_line_shapes_witness :
    (∃ n : Nat, "Line 2: msgstr \"\"" = "Line " ++ toString n ++ ": " ++ "msgstr \"\"") ∨
    (∃ t, "Line 2: msgstr \"\"" = "  Context: " ++ t) :=
  printed_line_shapes ["msgid \"a\"\n", "msgstr \"\"\n"] "Line 2: msgstr \"\"" (by decide)

end FindMissing
